import Mathlib

/-!
# Verification of the obsidian-ai-tags core

Shallow embedding of `src/src/services/AIService.ts` and of the configuration
validation at the head of `AutoTaggerPlugin.analyzeTags` in `src/main.ts`.

Modelling conventions:
* Strings are Lean `String`s; the JavaScript string helpers used by the source
  (`trim`, `split`, `replace(/\s+/g, ...)`, `toLowerCase`, `includes`) are
  re-implemented below as structurally recursive functions over the character
  list, so that every definition evaluates inside the kernel.
* JavaScript numbers occurring in the similarity computation are modelled
  exactly as rationals.  Every value the source compares is a quotient of two
  naturals bounded by the number of distinct characters of the inputs, and the
  threshold is 0.7; for such values the IEEE-754 double computations of the
  source agree exactly with rational arithmetic (the gap between two distinct
  candidate values is at least 1/(10 * 65536 * 65536), many orders of magnitude
  above the double rounding error of a single division), so the rational model
  is faithful.
* JSON values are the inductive `Json`; optional chaining is modelled in the
  `Option` monad; a thrown exception is `Except.error`.
-/

namespace AITags

/-- JavaScript whitespace class: the characters matched by the regular
expression class backslash-s and stripped by `String.prototype.trim`. -/
def jsIsWhitespace (c : Char) : Bool :=
  [' ', '\t', '\n', '\r', '\u000B', '\u000C', '\u00A0', '\u1680',
   '\u2000', '\u2001', '\u2002', '\u2003', '\u2004', '\u2005', '\u2006',
   '\u2007', '\u2008', '\u2009', '\u200A', '\u2028', '\u2029', '\u202F',
   '\u205F', '\u3000', '\uFEFF'].contains c

/-- JavaScript `trim`: strip leading and trailing whitespace. -/
def jsTrim (s : String) : String :=
  ⟨((s.toList.dropWhile jsIsWhitespace).reverse.dropWhile jsIsWhitespace).reverse⟩

/-- JavaScript `replace` with the global one-or-more-whitespace pattern and an
empty replacement: delete every whitespace character of the string. -/
def stripWs (s : String) : String :=
  ⟨s.toList.filter (fun c => !jsIsWhitespace c)⟩

/-- Character list of `str.toLowerCase()`.  The source builds a `Set` from the
single-character split of this string; we keep the character list and take
`List.toFinset` where the source takes the `Set`. -/
def lowerList (s : String) : List Char :=
  s.toList.map Char.toLower

/-- AIService.calculateSimilarity (AIService.ts lines 67-77): lowercase both
strings, return 1.0 when they are then equal, otherwise the size of the
intersection of their distinct-character sets divided by the larger set size.
The division of the two naturals is written `mkRat`, which is exactly that
rational quotient (the bridge to cast-and-divide form is the lemma
`calculateSimilarity_eq_div` below). -/
def calculateSimilarity (str1 str2 : String) : ℚ :=
  let s1 := lowerList str1
  let s2 := lowerList str2
  if s1 = s2 then 1
  else mkRat ((s1.toFinset ∩ s2.toFinset).card : ℤ) (max s1.toFinset.card s2.toFinset.card)

/-- The `similarityThreshold = 0.7` of AIService.findSimilarExistingTag,
as the exact rational 7/10 (see `THRESHOLD_eq`). -/
def THRESHOLD : ℚ := mkRat 7 10

/-- Loop body of AIService.findSimilarExistingTag (AIService.ts lines 86-92):
walk the existing tags carrying the best candidate so far and the highest
similarity so far, replacing them only when the similarity of the current tag
is strictly above the threshold and strictly above the running maximum. -/
def findLoop (newTag : String) : List String → Option String × ℚ → Option String × ℚ
  | [], st => st
  | e :: rest, (best, highest) =>
    let s := calculateSimilarity newTag e
    if s > THRESHOLD ∧ s > highest then findLoop newTag rest (some e, s)
    else findLoop newTag rest (best, highest)

/-- AIService.findSimilarExistingTag (AIService.ts lines 79-95).  The source
guard returns null when `config.existingTags` is undefined or empty; an
undefined tag list is modelled as the empty list, which the guard treats
identically. -/
def findSimilarExistingTag (existingTags : List String) (newTag : String) : Option String :=
  if existingTags.isEmpty then none
  else (findLoop newTag existingTags (none, 0)).1

/-- Per-candidate reconciliation step of AIService.generateTags
(AIService.ts lines 111-114): `findSimilarExistingTag(tag) || tag`.  The
JavaScript or-operator falls back to the candidate both when the lookup
returns null and when it returns the empty string (which is falsy). -/
def reconcileTag (existingTags : List String) (tag : String) : String :=
  match findSimilarExistingTag existingTags tag with
  | some v => if v = "" then tag else v
  | none => tag

/-- Reconciliation pass of AIService.generateTags (AIService.ts lines
111-114): map the per-candidate step over the generated tags in order. -/
def reconcileTags (existingTags : List String) (generatedTags : List String) : List String :=
  generatedTags.map (reconcileTag existingTags)

/-- JSON values as delivered by `response.json()`. -/
inductive Json where
  | null
  | bool (b : Bool)
  | num (n : Int)
  | str (s : String)
  | arr (elems : List Json)
  | obj (fields : List (String × Json))

/-- Property lookup in a parsed JSON object.  Objects produced by JSON
parsing have pairwise distinct keys, so first-match lookup is exact. -/
def jLookup : List (String × Json) → String → Option Json
  | [], _ => none
  | (k, v) :: rest, key => if k = key then some v else jLookup rest key

/-- Optional-chaining property access: `x?.key`.  Yields nothing when the
value is absent, null, or not an object. -/
def jField : Option Json → String → Option Json
  | some (Json.obj fields), key => jLookup fields key
  | _, _ => none

/-- Optional-chaining index access: `x?.[i]`.  Arrays index positionally,
objects fall back to the stringified key, strings index into their
characters (JavaScript semantics); anything else yields nothing. -/
def jIndex : Option Json → Nat → Option Json
  | some (Json.arr elems), i => elems[i]?
  | some (Json.obj fields), i => jLookup fields (toString i)
  | some (Json.str s), i => (s.toList[i]?).map (fun ch => Json.str ⟨[ch]⟩)
  | _, _ => none

/-- JavaScript `split` with a single-character separator, on character
lists: splitting the empty list yields one empty piece, like the source. -/
def splitListOn (sep : Char) : List Char → List (List Char)
  | [] => [[]]
  | c :: rest =>
    match splitListOn sep rest with
    | [] => [[]]
    | cur :: parts => if c = sep then [] :: cur :: parts else (c :: cur) :: parts

/-- JavaScript `tagsText.split(",")`. -/
def jsSplitComma (s : String) : List String :=
  (splitListOn ',' s.toList).map (fun l => ⟨l⟩)

/-- Tag-list post-processing of AIService.parseResponse (AIService.ts lines
181-185): split on commas, trim each piece, drop empty pieces, delete the
internal whitespace of each remaining piece. -/
def splitTags (tagsText : String) : List String :=
  (((jsSplitComma tagsText).map jsTrim).filter (fun t => t ≠ "")).map stripWs

/-- Message of the error thrown by the catch clause of
AIService.parseResponse. -/
def PARSE_FAIL_MSG : String := "解析 AI 响应失败"

/-- The optional-chaining extraction of the provider text field performed by
AIService.parseResponse (AIService.ts lines 175-179): the Gemini path walks
candidates, index 0, content, parts, index 0, text; every other provider walks
choices, index 0, message, content. -/
def extractTextField (data : Json) (provider : String) : Option Json :=
  if provider = "gemini" then
    jField (jIndex (jField (jField (jIndex (jField (some data) "candidates") 0) "content")
      "parts") 0) "text"
  else
    jField (jField (jIndex (jField (some data) "choices") 0) "message") "content"

/-- AIService.parseResponse (AIService.ts lines 172-189).  The first property
access throws on a null body (caught and re-thrown as the parse failure); an
absent or null text field leaves the empty string, which post-processing turns
into the empty tag list; a present string is trimmed and post-processed; a
present non-string value makes the trim call throw (caught and re-thrown as
the parse failure). -/
def parseResponse (data : Json) (provider : String) : Except String (List String) :=
  match data with
  | Json.null => Except.error PARSE_FAIL_MSG
  | _ =>
    match extractTextField data provider with
    | some (Json.str s) => Except.ok (splitTags (jsTrim s))
    | some Json.null => Except.ok (splitTags "")
    | none => Except.ok (splitTags "")
    | some _ => Except.error PARSE_FAIL_MSG

/-- The static system prompt of AIService (AIService.ts line 16). -/
def SYSTEM_PROMPT : String :=
  "你是一个文档标签生成器。请根据文档内容生成最多 3 个相关的标签。只需返回标签，用逗号分隔，不要包含其他解释或说明，禁止文本中包含空格。"

/-- AIServiceConfig (AIService.ts lines 3-8).  The optional existingTags
field is not consulted by request construction. -/
structure AIServiceConfig where
  apiKey : String
  apiUrl : String
  model : String
  existingTags : Option (List String)

/-- Outbound request assembled by AIService.generateTags (method, url,
headers, JSON body). -/
structure RequestSpec where
  method : String
  url : String
  headers : List (String × String)
  body : Json

/-- Boolean test that the first list occurs at the head of the second. -/
def startsWithChars : List Char → List Char → Bool
  | [], _ => true
  | _ :: _, [] => false
  | a :: as, b :: bs => a == b && startsWithChars as bs

/-- Boolean test that the first list occurs somewhere inside the second. -/
def containsSubChars (pat : List Char) : List Char → Bool
  | [] => pat.isEmpty
  | l@(_ :: rest) => startsWithChars pat l || containsSubChars pat rest

/-- JavaScript `s.includes(pat)`. -/
def jsIncludes (s pat : String) : Bool :=
  containsSubChars pat.toList s.toList

/-- Host substring that selects the Gemini provider
(AIService.ts line 118). -/
def GEMINI_HOST : String := "generativelanguage.googleapis.com"

/-- AIService.getProviderFromUrl (AIService.ts lines 117-122): any url
containing the Gemini host is gemini, everything else falls back to the
OpenAI-compatible shape; the function is total and never errors. -/
def getProviderFromUrl (cfg : AIServiceConfig) : String :=
  if jsIncludes cfg.apiUrl GEMINI_HOST then "gemini" else "openai"

/-- AIService.getFullApiUrl (AIService.ts lines 124-129). -/
def getFullApiUrl (cfg : AIServiceConfig) (provider : String) : String :=
  if provider = "gemini" then
    cfg.apiUrl ++ cfg.model ++ ":generateContent?key=" ++ cfg.apiKey
  else cfg.apiUrl

/-- AIService.getHeaders (AIService.ts lines 131-141): always content-type;
a bearer Authorization header exactly when the provider is not gemini and the
key is truthy (non-empty). -/
def getHeaders (cfg : AIServiceConfig) (provider : String) : List (String × String) :=
  [("Content-Type", "application/json")] ++
    (if provider ≠ "gemini" ∧ cfg.apiKey ≠ "" then
      [("Authorization", "Bearer " ++ cfg.apiKey)]
    else [])

/-- AIService.getRequestBody (AIService.ts lines 143-170). -/
def getRequestBody (cfg : AIServiceConfig) (content : String) (provider : String) : Json :=
  if provider = "gemini" then
    Json.obj [("contents", Json.arr [Json.obj [("parts", Json.arr
      [Json.obj [("text", Json.str SYSTEM_PROMPT)],
       Json.obj [("text", Json.str content)]])]])]
  else
    Json.obj [("model", Json.str cfg.model),
      ("messages", Json.arr
        [Json.obj [("role", Json.str "system"), ("content", Json.str SYSTEM_PROMPT)],
         Json.obj [("role", Json.str "user"), ("content", Json.str content)]])]

/-- Request assembly of AIService.generateTags (AIService.ts lines 98-106):
resolve the provider from the url, then take the full url, the headers and
the JSON body from it.  Total over all configurations. -/
def buildRequest (cfg : AIServiceConfig) (content : String) : RequestSpec :=
  let provider := getProviderFromUrl cfg
  { method := "POST"
    url := getFullApiUrl cfg provider
    headers := getHeaders cfg provider
    body := getRequestBody cfg content provider }

/-- Modelled from the spec: the RequestError class of
src/errors/RequestError.ts is imported by AIService.ts but its file is not in
the snapshot; per the spec it is the RemoteError carrying a message and a
status code.  Other thrown values (type errors, JSON syntax errors) are the
second constructor. -/
inductive Err where
  | requestError (message : String) (status : Nat)
  | otherError (message : String)

/-- Retry classification of AIService.retryRequest (AIService.ts line 57):
only a RequestError with status at least 500 is retried. -/
def Err.isRetryable : Err → Bool
  | Err.requestError _ status => decide (500 ≤ status)
  | Err.otherError _ => false

/-- AIService.TIMEOUT (AIService.ts line 17), in milliseconds. -/
def TIMEOUT : Nat := 30000

/-- AIService.MAX_RETRIES (AIService.ts line 18). -/
def MAX_RETRIES : Nat := 2

/-- Outcome of one underlying `fetch` plus `response.json()` round trip, as
observed by AIService.makeRequest: either the call completes before the
timeout with an ok flag, a status and a parsed JSON body, or the body is not
valid JSON, or the abort controller fires at the TIMEOUT deadline. -/
inductive FetchOutcome where
  | completes (ok : Bool) (status : Nat) (body : Json)
  | invalidJson
  | aborted

/-- Error-message extraction of AIService.makeRequest (AIService.ts line 36):
`error.error?.message || default`.  A present non-string message value does
not occur in the modelled wire formats and is collapsed to the default. -/
def errMessageOf (body : Json) : String :=
  match jField (jField (some body) "error") "message" with
  | some (Json.str m) => if m = "" then "请求失败" else m
  | _ => "请求失败"

/-- AIService.makeRequest (AIService.ts lines 24-48): abort at the deadline
becomes the timeout RequestError with status 408; a non-ok completion throws
a RequestError with the extracted message and the response status; invalid
JSON propagates as a non-RequestError exception; an ok completion returns the
body. -/
def makeRequest : FetchOutcome → Except Err Json
  | FetchOutcome.aborted => Except.error (Err.requestError "请求超时" 408)
  | FetchOutcome.invalidJson => Except.error (Err.otherError "Unexpected token in JSON")
  | FetchOutcome.completes true _ body => Except.ok body
  | FetchOutcome.completes false status body =>
    Except.error (Err.requestError (errMessageOf body) status)

/-- Loop of AIService.retryRequest (AIService.ts lines 50-65), with the
attempt index, the remaining number of loop iterations and the last stored
error as explicit state.  The result records the outcome, the number of
attempts performed, and the list of backoff delays slept (milliseconds,
2 to the power of the attempt index times 1000). -/
def retryLoop (f : Nat → Except Err Json) : Nat → Nat → Err → Except Err Json × Nat × List Nat
  | _, 0, lastError => (Except.error lastError, 0, [])
  | i, fuel + 1, _ =>
    match f i with
    | Except.ok r => (Except.ok r, 1, [])
    | Except.error e =>
      if e.isRetryable then
        let rest := retryLoop f (i + 1) fuel e
        (rest.1, rest.2.1 + 1, (2 ^ i * 1000) :: rest.2.2)
      else (Except.error e, 1, [])

/-- AIService.retryRequest (AIService.ts lines 50-65): run the loop from
attempt 0 with MAX_RETRIES + 1 iterations.  The initial last-error value is
never surfaced: the loop can only exhaust its iterations after a retryable
error has replaced it. -/
def retryRequest (f : Nat → Except Err Json) : Except Err Json × Nat × List Nat :=
  retryLoop f 0 (MAX_RETRIES + 1) (Err.otherError "uninitialized lastError")

/-- Attempt sequence with two 503 failures followed by a success. -/
def attempts503 : Nat → Except Err Json
  | 0 => Except.error (Err.requestError "Service Unavailable" 503)
  | 1 => Except.error (Err.requestError "Service Unavailable" 503)
  | _ => Except.ok (Json.str "ok")

/-- Attempt sequence that always fails with status 404. -/
def attempts404 : Nat → Except Err Json
  | _ => Except.error (Err.requestError "Not Found" 404)

/-- Per-provider settings entry of the plugin (main.ts lines 5-9). -/
structure ProviderSettings where
  apiKey : String
  apiUrl : String
  model : String

/-- Message thrown by the configuration check of
AutoTaggerPlugin.analyzeTags. -/
def CONFIG_KEY_ERROR : String := "请先在设置中配置 API 密钥"

/-- Pre-network validation of AutoTaggerPlugin.analyzeTags (main.ts lines
123-136): throw when the settings entry of the current provider is missing or
its api key is empty (falsy); otherwise build the service configuration that
is passed to AIService before any network activity. -/
def analyzeTagsValidate : Option ProviderSettings → Except String AIServiceConfig
  | none => Except.error CONFIG_KEY_ERROR
  | some pc =>
    if pc.apiKey = "" then Except.error CONFIG_KEY_ERROR
    else Except.ok
      { apiKey := pc.apiKey, apiUrl := pc.apiUrl, model := pc.model, existingTags := none }

/-- Well-formed OpenAI settings entry used as a witness input. -/
def openaiSettings : ProviderSettings :=
  { apiKey := "sk-live"
    apiUrl := "https://api.openai.com/v1/chat/completions"
    model := "gpt-4o-mini" }

/-- OpenAI-shaped sample response body used by the parsing claims. -/
def openaiSample : Json :=
  Json.obj [("choices", Json.arr
    [Json.obj [("message", Json.obj [("content", Json.str "ai, tags, golang")])]])]

/-- Sample configuration whose url contains the Gemini host. -/
def geminiSampleCfg : AIServiceConfig :=
  { apiKey := "KEY"
    apiUrl := "https://generativelanguage.googleapis.com/v1beta/models/"
    model := "gemini-1.5-flash"
    existingTags := none }

/-- Configuration pointing at the default local Ollama endpoint of the
provider table (defaultUrl of the ollama entry). -/
def ollamaCfg (apiKey model : String) : AIServiceConfig :=
  { apiKey := apiKey
    apiUrl := "http://localhost:11434/v1/chat/completions"
    model := model
    existingTags := none }

/-! ## Helper lemmas -/

/-- The threshold constant is exactly 0.7. -/
theorem THRESHOLD_eq : THRESHOLD = 7 / 10 := by
  rw [THRESHOLD, Rat.mkRat_eq_div]
  norm_num

/-- Bridge between the mkRat form of the definition and the cast-and-divide
form of the source expression. -/
theorem calculateSimilarity_eq_div (a b : String) :
    calculateSimilarity a b =
      if lowerList a = lowerList b then 1
      else (((lowerList a).toFinset ∩ (lowerList b).toFinset).card : ℚ) /
        ((max (lowerList a).toFinset.card (lowerList b).toFinset.card : ℕ) : ℚ) := by
  rw [calculateSimilarity, Rat.mkRat_eq_div]
  norm_num

theorem calculateSimilarity_self (a : String) : calculateSimilarity a a = 1 := by
  simp [calculateSimilarity]

theorem calculateSimilarity_comm (a b : String) :
    calculateSimilarity a b = calculateSimilarity b a := by
  by_cases h : lowerList a = lowerList b
  · simp only [calculateSimilarity]
    rw [if_pos h, if_pos h.symm]
  · simp only [calculateSimilarity]
    rw [if_neg h, if_neg (Ne.symm h), Finset.inter_comm, Nat.max_comm]

theorem calculateSimilarity_nonneg (a b : String) : 0 ≤ calculateSimilarity a b := by
  rw [calculateSimilarity_eq_div]
  split_ifs
  · norm_num
  · positivity

theorem calculateSimilarity_le_one (a b : String) : calculateSimilarity a b ≤ 1 := by
  rw [calculateSimilarity_eq_div]
  split_ifs with h
  · norm_num
  · have hcard : ((lowerList a).toFinset ∩ (lowerList b).toFinset).card ≤
        max (lowerList a).toFinset.card (lowerList b).toFinset.card :=
      le_trans (Finset.card_le_card Finset.inter_subset_left) (le_max_left _ _)
    rcases Nat.eq_zero_or_pos (max (lowerList a).toFinset.card (lowerList b).toFinset.card)
      with hm | hm
    · rw [hm]
      norm_num
    · rw [div_le_one (by exact_mod_cast hm)]
      exact_mod_cast hcard

theorem lowerList_empty : lowerList "" = [] := rfl

theorem eq_empty_of_lowerList_eq_nil {s : String} (h : lowerList s = []) : s = "" := by
  have hdata : s.toList = [] := List.map_eq_nil_iff.mp h
  cases s with
  | mk data =>
    have : data = [] := hdata
    subst this
    rfl

theorem calculateSimilarity_empty_right {c : String}
    (h : THRESHOLD < calculateSimilarity c "") : c = "" := by
  by_cases hnil : lowerList c = []
  · exact eq_empty_of_lowerList_eq_nil hnil
  · exfalso
    have hne : ¬ lowerList c = lowerList "" := by simpa [lowerList_empty] using hnil
    have h0 : calculateSimilarity c "" = 0 := by
      rw [calculateSimilarity_eq_div, if_neg hne]
      simp [lowerList_empty]
    rw [h0] at h
    exact absurd h (by decide)

/-- Full characterisation of the search loop: from any starting state it
either returns the state unchanged because no element beats both the
threshold and the running maximum, or it returns the similarity and value of
a list element that is strictly above the threshold and the starting maximum,
with every earlier element strictly below it and every later element failing
to beat it. -/
theorem findLoop_spec (c : String) (l : List String) :
    ∀ (b : Option String) (h : ℚ),
    (findLoop c l (b, h) = (b, h)
      ∧ ∀ e ∈ l, calculateSimilarity c e ≤ THRESHOLD ∨ calculateSimilarity c e ≤ h)
    ∨ (∃ l₁ e l₂, l = l₁ ++ e :: l₂
      ∧ findLoop c l (b, h) = (some e, calculateSimilarity c e)
      ∧ THRESHOLD < calculateSimilarity c e ∧ h < calculateSimilarity c e
      ∧ (∀ p ∈ l₁, calculateSimilarity c p < calculateSimilarity c e)
      ∧ (∀ q ∈ l₂, calculateSimilarity c q ≤ THRESHOLD
          ∨ calculateSimilarity c q ≤ calculateSimilarity c e)) := by
  induction l with
  | nil =>
    intro b h
    left
    exact ⟨rfl, by simp⟩
  | cons e rest ih =>
    intro b h
    by_cases hc : calculateSimilarity c e > THRESHOLD ∧ calculateSimilarity c e > h
    · have hstep : findLoop c (e :: rest) (b, h) =
          findLoop c rest (some e, calculateSimilarity c e) := by
        simp [findLoop, hc]
      rcases ih (some e) (calculateSimilarity c e) with ⟨heq, hall⟩ |
        ⟨l₁, e₂, l₂, hsplit, heq, ht, hh, hbefore, hafter⟩
      · right
        exact ⟨[], e, rest, rfl, by rw [hstep, heq], hc.1, hc.2, by simp, hall⟩
      · right
        refine ⟨e :: l₁, e₂, l₂, by rw [hsplit]; rfl, by rw [hstep, heq], ht,
          lt_trans hc.2 hh, ?_, hafter⟩
        intro p hp
        rcases List.mem_cons.mp hp with hp | hp
        · rw [hp]
          exact hh
        · exact hbefore p hp
    · have hstep : findLoop c (e :: rest) (b, h) = findLoop c rest (b, h) := by
        simp [findLoop, hc]
      push_neg at hc
      rcases ih b h with ⟨heq, hall⟩ | ⟨l₁, e₂, l₂, hsplit, heq, ht, hh, hbefore, hafter⟩
      · left
        refine ⟨by rw [hstep, heq], ?_⟩
        intro x hx
        rcases List.mem_cons.mp hx with hx | hx
        · subst hx
          by_cases hxt : calculateSimilarity c x ≤ THRESHOLD
          · exact Or.inl hxt
          · exact Or.inr (hc (lt_of_not_le hxt))
        · exact hall x hx
      · right
        refine ⟨e :: l₁, e₂, l₂, by rw [hsplit]; rfl, by rw [hstep, heq], ht, hh, ?_, hafter⟩
        intro p hp
        rcases List.mem_cons.mp hp with hp | hp
        · subst hp
          by_cases hxt : calculateSimilarity c p ≤ THRESHOLD
          · exact lt_of_le_of_lt hxt ht
          · exact lt_of_le_of_lt (hc (lt_of_not_le hxt)) hh
        · exact hbefore p hp

/-- A successful lookup returns an element of the list whose similarity is
strictly above the threshold, with every earlier element strictly less
similar and every later element at most as similar. -/
theorem findSimilar_eq_some (c : String) (l : List String) (e : String)
    (hf : findSimilarExistingTag l c = some e) :
    ∃ l₁ l₂, l = l₁ ++ e :: l₂
      ∧ THRESHOLD < calculateSimilarity c e
      ∧ (∀ p ∈ l₁, calculateSimilarity c p < calculateSimilarity c e)
      ∧ (∀ q ∈ l₂, calculateSimilarity c q ≤ calculateSimilarity c e) := by
  unfold findSimilarExistingTag at hf
  by_cases hemp : l.isEmpty
  · simp [hemp] at hf
  · rw [if_neg hemp] at hf
    rcases findLoop_spec c l none 0 with ⟨heq, _⟩ |
      ⟨l₁, e₂, l₂, hsplit, heq, ht, _, hbefore, hafter⟩
    · rw [heq] at hf
      exact absurd hf (by simp)
    · rw [heq] at hf
      obtain rfl : e₂ = e := by simpa using hf
      refine ⟨l₁, l₂, hsplit, ht, hbefore, fun q hq => ?_⟩
      rcases hafter q hq with hq1 | hq2
      · exact le_of_lt (lt_of_le_of_lt hq1 ht)
      · exact hq2

/-- When some existing tag is strictly above the threshold, the lookup
succeeds. -/
theorem findSimilar_exists (c : String) (l : List String)
    (hex : ∃ e ∈ l, THRESHOLD < calculateSimilarity c e) :
    ∃ e, findSimilarExistingTag l c = some e := by
  obtain ⟨e0, he0, ht0⟩ := hex
  unfold findSimilarExistingTag
  have hne : ¬ l.isEmpty = true := by
    rcases l with _ | ⟨x, xs⟩
    · simp at he0
    · simp
  rw [if_neg hne]
  rcases findLoop_spec c l none 0 with ⟨heq, hall⟩ | ⟨l₁, e₂, l₂, _, heq, _, _, _, _⟩
  · rcases hall e0 he0 with h1 | h2
    · exact absurd ht0 (not_lt.mpr h1)
    · exact absurd ht0 (not_lt.mpr (h2.trans (by decide)))
  · rw [heq]
    exact ⟨e₂, rfl⟩

/-- Substitution branch of the reconciliation step: when some existing tag is
strictly above the threshold, the step yields an existing tag of maximal
similarity, itself strictly above the threshold. -/
theorem reconcileTag_of_exists (l : List String) (tag : String)
    (hex : ∃ e ∈ l, THRESHOLD < calculateSimilarity tag e) :
    reconcileTag l tag ∈ l
    ∧ THRESHOLD < calculateSimilarity tag (reconcileTag l tag)
    ∧ ∀ e ∈ l, calculateSimilarity tag e ≤ calculateSimilarity tag (reconcileTag l tag) := by
  obtain ⟨e, hfind⟩ := findSimilar_exists tag l hex
  obtain ⟨l₁, l₂, hsplit, ht, hbefore, hafter⟩ := findSimilar_eq_some tag l e hfind
  have hmem : e ∈ l := by
    rw [hsplit]
    simp
  have hmax : ∀ x ∈ l, calculateSimilarity tag x ≤ calculateSimilarity tag e := by
    intro x hx
    rw [hsplit] at hx
    rcases List.mem_append.mp hx with hx1 | hx2
    · exact le_of_lt (hbefore x hx1)
    · rcases List.mem_cons.mp hx2 with hx3 | hx3
      · rw [hx3]
      · exact hafter x hx3
  by_cases he : e = ""
  · subst he
    have htag : tag = "" := calculateSimilarity_empty_right ht
    have hrt : reconcileTag l tag = tag := by
      simp [reconcileTag, hfind]
    rw [hrt, htag]
    rw [htag] at ht hmax
    exact ⟨hmem, ht, hmax⟩
  · have hrt : reconcileTag l tag = e := by
      simp [reconcileTag, hfind, he]
    rw [hrt]
    exact ⟨hmem, ht, hmax⟩

/-- Keep branch of the reconciliation step: when no existing tag is strictly
above the threshold, the candidate is returned unchanged. -/
theorem reconcileTag_of_none (l : List String) (tag : String)
    (hall : ∀ e ∈ l, calculateSimilarity tag e ≤ THRESHOLD) :
    reconcileTag l tag = tag := by
  cases hfind : findSimilarExistingTag l tag with
  | none => simp [reconcileTag, hfind]
  | some e =>
    obtain ⟨l₁, l₂, hsplit, ht, _, _⟩ := findSimilar_eq_some tag l e hfind
    have hmem : e ∈ l := by
      rw [hsplit]
      simp
    exact absurd ht (not_lt.mpr (hall e hmem))

/-- The attempt count of the retry loop never exceeds the remaining
iteration budget. -/
theorem retryLoop_count_le (f : Nat → Except Err Json) :
    ∀ (fuel i : Nat) (d : Err), (retryLoop f i fuel d).2.1 ≤ fuel := by
  intro fuel
  induction fuel with
  | zero =>
    intro i d
    simp [retryLoop]
  | succ n ih =>
    intro i d
    cases hf : f i with
    | ok r => simp [retryLoop, hf]
    | error e =>
      by_cases hr : e.isRetryable
      · have := ih (i + 1) e
        simp only [retryLoop, hf, hr, if_true]
        omega
      · simp [retryLoop, hf, hr]

/-- Every attempt that was followed by another attempt failed with a
retryable error. -/
theorem retryLoop_mid (f : Nat → Except Err Json) :
    ∀ (fuel i : Nat) (d : Err) (k : Nat),
    k + 2 ≤ (retryLoop f i fuel d).2.1 →
    ∃ e, f (i + k) = Except.error e ∧ e.isRetryable = true := by
  intro fuel
  induction fuel with
  | zero =>
    intro i d k hk
    simp [retryLoop] at hk
  | succ n ih =>
    intro i d k hk
    cases hf : f i with
    | ok r =>
      have h1 : (retryLoop f i (n + 1) d).2.1 = 1 := by simp [retryLoop, hf]
      omega
    | error e =>
      by_cases hr : e.isRetryable
      · simp only [retryLoop, hf, hr, if_true] at hk
        cases k with
        | zero => exact ⟨e, by simpa using hf, hr⟩
        | succ k₂ =>
          have hk₂ : k₂ + 2 ≤ (retryLoop f (i + 1) n e).2.1 := by omega
          obtain ⟨e₂, he₂, hr₂⟩ := ih (i + 1) e k₂ hk₂
          refine ⟨e₂, ?_, hr₂⟩
          rw [show i + (k₂ + 1) = i + 1 + k₂ by omega]
          exact he₂
      · have h1 : (retryLoop f i (n + 1) d).2.1 = 1 := by simp [retryLoop, hf, hr]
        omega

/-! ## Claim theorems -/

/-- C1: the reconciliation step maps each candidate independently and in
order (the output is the elementwise image of the candidate list, preserving
length and positions); when at least one existing tag has similarity strictly
greater than the threshold 0.7 with the candidate, the output at that
position is an existing tag of maximal similarity, itself strictly above the
threshold; otherwise the candidate is kept unchanged; and on candidates
Golang, databases against existing tags golang, storage the output is
golang, databases. -/
theorem reconcile_spec (existingTags candidates : List String) :
    THRESHOLD = 7 / 10
    ∧ (reconcileTags existingTags candidates).length = candidates.length
    ∧ (∀ (i : ℕ) (h1 : i < candidates.length)
        (h2 : i < (reconcileTags existingTags candidates).length),
        (reconcileTags existingTags candidates).get ⟨i, h2⟩
          = reconcileTag existingTags (candidates.get ⟨i, h1⟩))
    ∧ (∀ tag, (∃ e ∈ existingTags, THRESHOLD < calculateSimilarity tag e) →
        reconcileTag existingTags tag ∈ existingTags
        ∧ THRESHOLD < calculateSimilarity tag (reconcileTag existingTags tag)
        ∧ ∀ e ∈ existingTags,
            calculateSimilarity tag e ≤ calculateSimilarity tag (reconcileTag existingTags tag))
    ∧ (∀ tag, (∀ e ∈ existingTags, calculateSimilarity tag e ≤ THRESHOLD) →
        reconcileTag existingTags tag = tag)
    ∧ reconcileTags ["golang", "storage"] ["Golang", "databases"]
        = ["golang", "databases"] := by
  refine ⟨THRESHOLD_eq, by simp [reconcileTags], ?_, ?_, ?_, by decide⟩
  · intro i h1 h2
    simp only [reconcileTags, List.get_eq_getElem, List.getElem_map]
  · intro tag hex
    exact reconcileTag_of_exists existingTags tag hex
  · intro tag hall
    exact reconcileTag_of_none existingTags tag hall

/-- Witness for C1: with existing tag golang and candidate Golang the
substitution branch fires and yields a member of the existing tags. -/
theorem reconcile_spec_witness : reconcileTag ["golang"] "Golang" ∈ ["golang"] :=
  ((reconcile_spec ["golang"] ["Golang"]).2.2.2.1 "Golang" (by decide)).1

/-- C2: similarity of any string with itself is 1, similarity is symmetric,
and similarity always lies in the closed interval from 0 to 1. -/
theorem similarity_properties (a b : String) :
    calculateSimilarity a a = 1
    ∧ calculateSimilarity a b = calculateSimilarity b a
    ∧ 0 ≤ calculateSimilarity a b
    ∧ calculateSimilarity a b ≤ 1 :=
  ⟨calculateSimilarity_self a, calculateSimilarity_comm a b,
   calculateSimilarity_nonneg a b, calculateSimilarity_le_one a b⟩

/-- C3: the executor performs at most 3 attempts in total; whenever an
attempt was followed by another one, that attempt failed with a RequestError
of status at least 500; a first failure that is not such an error propagates
immediately after exactly 1 attempt; two 503 failures followed by a success
give exactly 3 attempts with backoff delays of 1000 ms then 2000 ms; and a
404 failure gives exactly 1 attempt. -/
theorem retryRequest_policy (f : Nat → Except Err Json) :
    (retryRequest f).2.1 ≤ 3
    ∧ (∀ i, i + 2 ≤ (retryRequest f).2.1 →
        ∃ e, f i = Except.error e ∧ e.isRetryable = true)
    ∧ (∀ e, f 0 = Except.error e → e.isRetryable = false →
        retryRequest f = (Except.error e, 1, []))
    ∧ retryRequest attempts503 = (Except.ok (Json.str "ok"), 3, [1000, 2000])
    ∧ retryRequest attempts404
        = (Except.error (Err.requestError "Not Found" 404), 1, []) := by
  refine ⟨retryLoop_count_le f 3 0 _, ?_, ?_, rfl, rfl⟩
  · intro i hi
    have := retryLoop_mid f 3 0 _ i hi
    simpa using this
  · intro e hf0 hr
    simp [retryRequest, retryLoop, hf0, hr]

/-- Witness for C3: in the 503 scenario the first attempt really failed with
a retryable server error. -/
theorem retryRequest_policy_witness :
    ∃ e, attempts503 0 = Except.error e ∧ e.isRetryable = true :=
  (retryRequest_policy attempts503).2.1 0 (by decide)

/-- C4 counterexample: on the OpenAI-shaped body that lacks the expected text
field entirely, parseResponse succeeds with the empty tag list instead of
failing with a malformed-response error. -/
theorem parseResponse_absent_counterexample :
    parseResponse (Json.obj []) "openai" = Except.ok [] := rfl

/-- C4 (amended): for every non-null response body in which the expected text
field of the provider is absent, parseResponse succeeds with the empty tag
list (no error is raised); and a parse failure, when one is raised, is not a
retryable error. -/
theorem parseResponse_absent (data : Json) (provider : String)
    (hnn : data ≠ Json.null)
    (habs : extractTextField data provider = none) :
    parseResponse data provider = Except.ok []
    ∧ (Err.otherError PARSE_FAIL_MSG).isRetryable = false := by
  refine ⟨?_, rfl⟩
  cases data with
  | null => exact absurd rfl hnn
  | bool b => simp [parseResponse, habs, splitTags, jsSplitComma, splitListOn, jsTrim]
  | num n => simp [parseResponse, habs, splitTags, jsSplitComma, splitListOn, jsTrim]
  | str s => simp [parseResponse, habs, splitTags, jsSplitComma, splitListOn, jsTrim]
  | arr xs => simp [parseResponse, habs, splitTags, jsSplitComma, splitListOn, jsTrim]
  | obj fs => simp [parseResponse, habs, splitTags, jsSplitComma, splitListOn, jsTrim]

/-- Witness for C4 (amended): a concrete body with an unrelated field. -/
theorem parseResponse_absent_witness :
    parseResponse (Json.obj [("foo", Json.str "bar")]) "openai" = Except.ok []
    ∧ (Err.otherError PARSE_FAIL_MSG).isRetryable = false :=
  parseResponse_absent (Json.obj [("foo", Json.str "bar")]) "openai"
    (fun h => Json.noConfusion h) rfl

/-- C5: whenever the extracted text field is a present string, parseResponse
returns the comma-split, trimmed, empty-filtered, whitespace-stripped pieces
of that string; the OpenAI-shaped sample body yields the tags ai, tags,
golang; and the raw text machine learning, nlp yields machinelearning and
nlp with internal whitespace removed. -/
theorem parseResponse_present (data : Json) (provider : String) (s : String)
    (hfield : extractTextField data provider = some (Json.str s)) :
    parseResponse data provider
      = Except.ok ((((jsSplitComma (jsTrim s)).map jsTrim).filter (fun t => t ≠ "")).map stripWs)
    ∧ parseResponse openaiSample "openai" = Except.ok ["ai", "tags", "golang"]
    ∧ splitTags "machine learning, nlp" = ["machinelearning", "nlp"] := by
  refine ⟨?_, rfl, by decide⟩
  cases data with
  | null =>
    have hnone : extractTextField Json.null provider = none := by
      unfold extractTextField
      split_ifs <;> rfl
    rw [hnone] at hfield
    exact Option.noConfusion hfield
  | bool b => simp [parseResponse, hfield, splitTags]
  | num n => simp [parseResponse, hfield, splitTags]
  | str s₂ => simp [parseResponse, hfield, splitTags]
  | arr xs => simp [parseResponse, hfield, splitTags]
  | obj fs => simp [parseResponse, hfield, splitTags]

/-- Witness for C5: the sample body, whose extracted field is the string of
comma-separated tags. -/
theorem parseResponse_present_witness :
    parseResponse openaiSample "openai"
      = Except.ok ((((jsSplitComma (jsTrim "ai, tags, golang")).map jsTrim).filter
          (fun t => t ≠ "")).map stripWs) :=
  (parseResponse_present openaiSample "openai" "ai, tags, golang" rfl).1

/-- C6: request construction is total and branches only on whether the url
contains the Gemini host.  Gemini urls get a POST to the url with the model
and the generateContent suffix appended and the key passed as a query
parameter, a body with prompt and document as sequential text parts, and no
Authorization header; every other url gets a POST to the url itself, a
chat-style system and user message body, and a bearer Authorization header
exactly when the key is non-empty. -/
theorem buildRequest_spec (cfg : AIServiceConfig) (content : String) :
    (jsIncludes cfg.apiUrl GEMINI_HOST = true →
      buildRequest cfg content =
        { method := "POST"
          url := cfg.apiUrl ++ cfg.model ++ ":generateContent?key=" ++ cfg.apiKey
          headers := [("Content-Type", "application/json")]
          body := Json.obj [("contents", Json.arr [Json.obj [("parts", Json.arr
            [Json.obj [("text", Json.str SYSTEM_PROMPT)],
             Json.obj [("text", Json.str content)]])]])] }
      ∧ ∀ v, ("Authorization", v) ∉ (buildRequest cfg content).headers)
    ∧ (jsIncludes cfg.apiUrl GEMINI_HOST = false →
      buildRequest cfg content =
        { method := "POST"
          url := cfg.apiUrl
          headers := ("Content-Type", "application/json") ::
            (if cfg.apiKey ≠ "" then [("Authorization", "Bearer " ++ cfg.apiKey)] else [])
          body := Json.obj [("model", Json.str cfg.model),
            ("messages", Json.arr
              [Json.obj [("role", Json.str "system"), ("content", Json.str SYSTEM_PROMPT)],
               Json.obj [("role", Json.str "user"), ("content", Json.str content)]])] }) := by
  constructor
  · intro hg
    have hp : getProviderFromUrl cfg = "gemini" := by
      simp [getProviderFromUrl, hg]
    constructor
    · simp [buildRequest, hp, getFullApiUrl, getHeaders, getRequestBody]
    · intro v
      simp [buildRequest, hp, getHeaders]
  · intro hg
    have hp : getProviderFromUrl cfg = "openai" := by
      simp [getProviderFromUrl, hg]
    simp [buildRequest, hp, getFullApiUrl, getHeaders, getRequestBody]

/-- Witness for C6: a configuration whose url contains the Gemini host. -/
theorem buildRequest_spec_witness :
    buildRequest geminiSampleCfg "doc" =
      { method := "POST"
        url := geminiSampleCfg.apiUrl ++ geminiSampleCfg.model ++ ":generateContent?key="
          ++ geminiSampleCfg.apiKey
        headers := [("Content-Type", "application/json")]
        body := Json.obj [("contents", Json.arr [Json.obj [("parts", Json.arr
          [Json.obj [("text", Json.str SYSTEM_PROMPT)],
           Json.obj [("text", Json.str "doc")]])]])] } :=
  ((buildRequest_spec geminiSampleCfg "doc").1 (by decide)).1

/-- C7 counterexample: with the default local Ollama endpoint and a populated
key field, the built request does carry a bearer Authorization header,
contradicting the claim that none is sent. -/
theorem ollama_auth_counterexample :
    ("Authorization", "Bearer sk-local-test")
      ∈ (buildRequest (ollamaCfg "sk-local-test" "llama3") "doc").headers := by
  decide

/-- C7 (amended): a configuration for the default local Ollama endpoint
resolves to the OpenAI-compatible shape (url kept, chat-style body), and the
Authorization header is omitted exactly when the key field is empty; with a
populated key field a bearer Authorization header is sent. -/
theorem ollama_request_shape (apiKey model content : String) :
    getProviderFromUrl (ollamaCfg apiKey model) = "openai"
    ∧ (buildRequest (ollamaCfg apiKey model) content).url
        = "http://localhost:11434/v1/chat/completions"
    ∧ (buildRequest (ollamaCfg apiKey model) content).body
        = Json.obj [("model", Json.str model),
            ("messages", Json.arr
              [Json.obj [("role", Json.str "system"), ("content", Json.str SYSTEM_PROMPT)],
               Json.obj [("role", Json.str "user"), ("content", Json.str content)]])]
    ∧ (apiKey = "" → (buildRequest (ollamaCfg apiKey model) content).headers
        = [("Content-Type", "application/json")])
    ∧ (apiKey ≠ "" → (buildRequest (ollamaCfg apiKey model) content).headers
        = [("Content-Type", "application/json"), ("Authorization", "Bearer " ++ apiKey)]) := by
  have hni : jsIncludes "http://localhost:11434/v1/chat/completions" GEMINI_HOST = false := by
    decide
  have hp : getProviderFromUrl (ollamaCfg apiKey model) = "openai" := by
    simp [getProviderFromUrl, ollamaCfg, hni]
  refine ⟨hp, ?_, ?_, ?_, ?_⟩
  · simp only [buildRequest, hp, getFullApiUrl]
    simp [ollamaCfg]
  · simp only [buildRequest, hp, getRequestBody]
    simp [ollamaCfg]
  · intro hk
    simp only [buildRequest, hp, getHeaders]
    simp [ollamaCfg, hk]
  · intro hk
    simp only [buildRequest, hp, getHeaders]
    simp [ollamaCfg, hk]

/-- Witness for C7 (amended): a populated key on the Ollama endpoint yields
the bearer header. -/
theorem ollama_request_shape_witness :
    (buildRequest (ollamaCfg "sk-local-test" "llama3") "doc").headers
      = [("Content-Type", "application/json"),
         ("Authorization", "Bearer " ++ "sk-local-test")] :=
  (ollama_request_shape "sk-local-test" "llama3" "doc").2.2.2.2 (by decide)

/-- C8 counterexample: with a populated api key but empty url and empty
model, the pre-network validation of analyzeTags succeeds instead of failing
with a configuration error, contradicting the claim that an empty baseUrl or
model fails fast. -/
theorem analyzeTags_no_url_model_check :
    analyzeTagsValidate (some { apiKey := "sk-test", apiUrl := "", model := "" })
      = Except.ok { apiKey := "sk-test", apiUrl := "", model := "", existingTags := none } :=
  rfl

/-- C8 (amended): the orchestrator fails before any network call with its
configuration error exactly when the settings entry of the current provider
is missing or its api key is empty; with a non-empty api key the validation
succeeds and hands the url and model over unchecked, so an empty url or
model is not caught at this layer. -/
theorem analyzeTags_validation (ps : Option ProviderSettings) :
    ((∃ msg, analyzeTagsValidate ps = Except.error msg) ↔
      ps = none ∨ ∃ pc, ps = some pc ∧ pc.apiKey = "")
    ∧ (∀ pc, ps = some pc → pc.apiKey ≠ "" →
        analyzeTagsValidate ps = Except.ok
          { apiKey := pc.apiKey, apiUrl := pc.apiUrl, model := pc.model,
            existingTags := none }) := by
  constructor
  · cases ps with
    | none => simp [analyzeTagsValidate]
    | some pc =>
      by_cases hk : pc.apiKey = ""
      · simp [analyzeTagsValidate, hk]
      · simp [analyzeTagsValidate, hk]
  · intro pc hpc hk
    subst hpc
    simp [analyzeTagsValidate, hk]

/-- Witness for C8 (amended): a well-formed OpenAI settings entry passes
validation. -/
theorem analyzeTags_validation_witness :
    analyzeTagsValidate (some openaiSettings)
      = Except.ok
        { apiKey := openaiSettings.apiKey
          apiUrl := openaiSettings.apiUrl
          model := openaiSettings.model
          existingTags := none } :=
  (analyzeTags_validation (some openaiSettings)).2 openaiSettings rfl (by decide)

/-- C9: the per-attempt timeout constant is 30000 milliseconds; when the
deadline expires the attempt fails with the timeout RequestError carrying
status 408; that error is not retryable; and feeding it to the executor
propagates it to the caller after exactly 1 attempt with no backoff. -/
theorem timeout_policy :
    TIMEOUT = 30000
    ∧ makeRequest FetchOutcome.aborted = Except.error (Err.requestError "请求超时" 408)
    ∧ (Err.requestError "请求超时" 408).isRetryable = false
    ∧ retryRequest (fun _ => makeRequest FetchOutcome.aborted)
        = (Except.error (Err.requestError "请求超时" 408), 1, []) :=
  ⟨rfl, rfl, rfl, rfl⟩

/-- C10: whenever the lookup substitutes an existing tag, that tag splits the
existing list so that every tag before it is strictly less similar and every
tag after it is at most as similar; in particular, when several existing tags
tie for the maximal similarity above the threshold, the earliest one in list
order is substituted. -/
theorem findSimilar_earliest (newTag : String) (existingTags : List String) (e : String)
    (hfind : findSimilarExistingTag existingTags newTag = some e) :
    ∃ l₁ l₂, existingTags = l₁ ++ e :: l₂
      ∧ THRESHOLD < calculateSimilarity newTag e
      ∧ (∀ p ∈ l₁, calculateSimilarity newTag p < calculateSimilarity newTag e)
      ∧ (∀ q ∈ l₂, calculateSimilarity newTag q ≤ calculateSimilarity newTag e) :=
  findSimilar_eq_some newTag existingTags e hfind

/-- Witness for C10: the tags ab and ba both have similarity 1 with the
candidate ab (a tie above the threshold); the lookup returns the earlier
one. -/
theorem findSimilar_earliest_witness :
    ∃ l₁ l₂, ["ab", "ba"] = l₁ ++ "ab" :: l₂
      ∧ THRESHOLD < calculateSimilarity "ab" "ab"
      ∧ (∀ p ∈ l₁, calculateSimilarity "ab" p < calculateSimilarity "ab" "ab")
      ∧ (∀ q ∈ l₂, calculateSimilarity "ab" q ≤ calculateSimilarity "ab" "ab") :=
  findSimilar_earliest "ab" ["ab", "ba"] "ab" (by decide)

end AITags
